import Mathlib

/-!
Verification of the VinAuto virtual-screening core against its specification.

The development shallowly embeds the Python sources of `virtual_screening`:

* `dock_box.py` (`calculate_docking_box`): a structure file is a list of
  text lines; coordinates are exact rationals (the Python floats of interest
  here are short decimal literals, which rationals represent exactly).
* `docking.py` (`run_docking`): the external Vina subprocess is an oracle
  `String → EngineResult` giving the return code and captured stdout for a
  ligand file name; the filesystem effects (summary log, per-ligand capture
  files) are tracked in an explicit `DockState`.
* `pipeline.py` step 2 together with `converters/smiles_to_mol2.py`
  (`convert_smiles_to_mol2`): the external obabel call is an oracle
  `String → Bool` on the cleaned SMILES string; a raised exception is an
  `Except.error`.

Python string primitives used by those sources (`str.split()` with no
arguments, `float()` on a token, `str.lower()`, `str.strip()`,
`str.startswith`, `str.endswith`) are modelled by the `py*` helpers below.
-/

/-- Splitter on whitespace runs: the accumulator holds the current token
reversed; tokens are emitted non-empty, so leading, trailing and repeated
whitespace produce no empty pieces. -/
def splitWsAux : List Char → List Char → List (List Char)
  | [], acc => if acc.isEmpty then [] else [acc.reverse]
  | c :: rest, acc =>
    if c.isWhitespace then
      if acc.isEmpty then splitWsAux rest []
      else acc.reverse :: splitWsAux rest []
    else splitWsAux rest (c :: acc)

/-- Python `line.split()` (no argument): split on runs of whitespace and
drop the empty pieces. -/
def pySplit (s : String) : List String :=
  (splitWsAux s.toList []).map List.asString

/-- Splitter on newline characters, keeping empty pieces (the lines of a
capture file, as Python file iteration sees them modulo the trailing
newline, which no use below is sensitive to). -/
def splitNlAux : List Char → List Char → List (List Char)
  | [], acc => [acc.reverse]
  | c :: rest, acc =>
    if c = '\n' then acc.reverse :: splitNlAux rest []
    else splitNlAux rest (c :: acc)

/-- The lines of a text blob. -/
def pyLines (s : String) : List String :=
  (splitNlAux s.toList []).map List.asString

/-- Python `s.startswith(pre)`. -/
def pyStartsWith (s pre : String) : Bool :=
  pre.toList.isPrefixOf s.toList

/-- Python `s.endswith(suf)`. -/
def pyEndsWith (s suf : String) : Bool :=
  suf.toList.isSuffixOf s.toList

/-- Digits of a numeral, most significant first, to a natural number. -/
def digitsVal (cs : List Char) : Nat :=
  cs.foldl (fun n c => 10 * n + (c.toNat - 48)) 0

/-- The exponent of a decimal literal, after `e`/`E`: optional sign and a
non-empty digit string. Returns the sign flag and the digit value. -/
def parseExpPart (cs : List Char) : Option (Bool × ℕ) :=
  let (neg, ds) :=
    match cs with
    | '-' :: r => (true, r)
    | '+' :: r => (false, r)
    | r => (false, r)
  if ds.isEmpty then none
  else if ds.all Char.isDigit then some (neg, digitsVal ds)
  else none

/-- Mantissa of a decimal literal: digits, optionally a point followed by
more digits; at least one digit must be present overall. Returns the digit
value (integer and fractional digits concatenated) and the number of
fractional digits, so the value is `fst / 10 ^ snd`. -/
def parseMant (cs : List Char) : Option (ℤ × ℕ) :=
  let intPart := cs.takeWhile Char.isDigit
  let rest := cs.dropWhile Char.isDigit
  match rest with
  | [] => if intPart.isEmpty then none else some ((digitsVal intPart : ℤ), 0)
  | '.' :: rest2 =>
    let fracPart := rest2.takeWhile Char.isDigit
    let rest3 := rest2.dropWhile Char.isDigit
    if rest3.isEmpty then
      if intPart.isEmpty ∧ fracPart.isEmpty then none
      else some ((digitsVal (intPart ++ fracPart) : ℤ), fracPart.length)
    else none
  | _ => none

/-- Grammar of Python `float(token)` on a whitespace-free token: optional
sign, decimal mantissa, optional decimal exponent. The value is represented
exactly as a pair `(n, k)` standing for `n / 10 ^ k` (IEEE specials such as
`inf`/`nan` have no rational value and are rejected; they do not occur in
coordinate fields). -/
def parseDec (cs : List Char) : Option (ℤ × ℕ) :=
  let (sign, cs1) :=
    match cs with
    | '-' :: r => ((-1 : ℤ), r)
    | '+' :: r => ((1 : ℤ), r)
    | r => ((1 : ℤ), r)
  match cs1.splitOnP (fun c => c = 'e' ∨ c = 'E') with
  | [m] => (parseMant m).map (fun p => (sign * p.1, p.2))
  | [m, e] =>
    match parseMant m, parseExpPart e with
    | some p, some (eneg, k) =>
      if eneg then some (sign * p.1, p.2 + k)
      else some (sign * p.1 * 10 ^ k, p.2)
    | _, _ => none
  | _ => none

/-- The exact rational value of a parsed decimal. -/
def ratOfDec (p : ℤ × ℕ) : ℚ :=
  (p.1 : ℚ) / (10 : ℚ) ^ p.2

/-- Python `float(token)` on a whitespace-free token, as an exact rational. -/
def pyFloat (s : String) : Option ℚ :=
  (parseDec s.toList).map ratOfDec

/-- Python `s.lower()` (the file names here are ASCII). -/
def pyLower (s : String) : String :=
  (s.toList.map Char.toLower).asString

/-
## Geometry extractor and box calculator (`dock_box.py`)
-/

/-- `line.startswith("ATOM") or line.startswith("HETATM")`
(dock_box.py line 29). -/
def isAtomLine (line : String) : Bool :=
  pyStartsWith line "ATOM" || pyStartsWith line "HETATM"

/-- The `try` block of dock_box.py lines 31-42: `x = float(fields[6])`,
`y = float(fields[7])`, `z = float(fields[8])`; an `IndexError` (missing
token) or `ValueError` (unparseable token) anywhere in the block makes the
whole block fail, and the line is skipped. -/
def tryXYZ (fields : List String) : Option (ℚ × ℚ × ℚ) := do
  let fx ← fields[6]?
  let x ← pyFloat fx
  let fy ← fields[7]?
  let y ← pyFloat fy
  let fz ← fields[8]?
  let z ← pyFloat fz
  pure (x, y, z)

/-- The six running extrema of dock_box.py. The source initialises them to
`±inf`; here the state is `Option Bounds`, with `none` for the phase where
no valid coordinate triple has been seen (so `min_x` is still `inf`). -/
structure Bounds where
  min_x : ℚ
  max_x : ℚ
  min_y : ℚ
  max_y : ℚ
  min_z : ℚ
  max_z : ℚ
  deriving DecidableEq, Repr

/-- The update block of dock_box.py lines 44-55: each `if x < min_x` /
`if x > max_x` pair is exactly a `min` / `max` against the running value;
the first valid triple replaces all six `±inf` sentinels. -/
def updateBounds : Option Bounds → ℚ × ℚ × ℚ → Bounds
  | none, (x, y, z) => ⟨x, x, y, y, z, z⟩
  | some b, (x, y, z) =>
    ⟨min b.min_x x, max b.max_x x, min b.min_y y, max b.max_y y,
     min b.min_z z, max b.max_z z⟩

/-- One iteration of the `for line in f` loop of dock_box.py lines 27-55. -/
def stepLine (st : Option Bounds) (line : String) : Option Bounds :=
  if isAtomLine line then
    match tryXYZ (pySplit line) with
    | none => st
    | some p => some (updateBounds st p)
  else st

/-- The returned dictionary of dock_box.py lines 71-78. -/
structure Box where
  center_x : ℚ
  center_y : ℚ
  center_z : ℚ
  size_x : ℚ
  size_y : ℚ
  size_z : ℚ
  deriving DecidableEq, Repr

/-- The error message of dock_box.py line 59. -/
def noCoordinatesMsg : String :=
  "No valid ATOM or HETATM lines found in the file."

/-- `calculate_docking_box` (dock_box.py): scan the lines of the structure
file, then either raise `ValueError` (no valid triple seen) or return the
center and padded sizes computed from the extrema. -/
def calculate_docking_box (fileLines : List String) (padding : ℚ) :
    Except String Box :=
  match fileLines.foldl stepLine none with
  | none => .error noCoordinatesMsg
  | some b =>
    .ok
      { center_x := (b.min_x + b.max_x) / 2
        center_y := (b.min_y + b.max_y) / 2
        center_z := (b.min_z + b.max_z) / 2
        size_x := (b.max_x - b.min_x) + padding
        size_y := (b.max_y - b.min_y) + padding
        size_z := (b.max_z - b.min_z) + padding }

/-- A line that actually contributes a coordinate triple: atom-tagged and
with parseable 7th, 8th, 9th whitespace tokens. -/
def validAtomLine (line : String) : Bool :=
  isAtomLine line && (tryXYZ (pySplit line)).isSome

/-
## Job supervisor (`docking.py`, `run_docking`)
-/

/-- Outcome of `subprocess.run(vina_command, ..., check=False)`: the return
code of the engine process and its captured stdout. The engine is modelled
as an oracle from the ligand file name to this outcome. -/
structure EngineResult where
  returncode : Int
  stdout : String
  deriving DecidableEq, Repr

/-- `ligand_file.lower().endswith(".pdbqt")` (docking.py line 50). -/
def isPdbqtName (f : String) : Bool :=
  pyEndsWith (pyLower f) ".pdbqt"

/-- The result-line marker of docking.py line 102. -/
def vinaMarker : String :=
  "REMARK VINA RESULT:"

/-- The first line of the capture file starting with the marker
(docking.py lines 101-106; the loop breaks at the first match). -/
def findResultLine (stdout : String) : Option String :=
  (pyLines stdout).find? (fun ln => pyStartsWith ln vinaMarker)

/-- The extraction loop of docking.py lines 97-106 applied to a capture
file content: take the first marker line; if it has at least four
whitespace tokens the energy is `parts[3]`, otherwise the loop still breaks
and no energy is recorded. -/
def extractEnergy (stdout : String) : Option String :=
  match findResultLine stdout with
  | none => none
  | some ln => (pySplit ln)[3]?

/-- The summary header written at docking.py line 46. -/
def summaryHeader : String :=
  "Ligand\tBinding Energy (kcal/mol)"

/-- The whole energy-extraction phase for one ligand (docking.py lines
97-110): the capture file was just written with the engine stdout, so it
exists and its size is the stdout length; extraction runs only on a
non-empty capture. -/
def energyOpt (r : EngineResult) : Option String :=
  if r.stdout.length > 0 then extractEnergy r.stdout else none

/-- The observable state built up by `run_docking`: the lines of the global
summary log in the order written, the per-ligand stdout capture files (the
artifact names are derived deterministically from the ligand file name, so
the ligand file name keys them), the in-memory `docking_results` list
(`ligand`, `binding_energy` pairs), and the ligand files for which the
engine was invoked. -/
structure DockState where
  summary : List String
  captures : List (String × String)
  results : List (String × String)
  invocations : List String
  deriving DecidableEq, Repr

/-- One iteration of the `for ligand_file in os.listdir(...)` loop of
docking.py lines 49-114: skip names not ending in `.pdbqt`; invoke the
engine; on non-zero return code `continue`; otherwise write the capture
file; then, if the capture file is non-empty and its first marker line has
a 4th token, append the summary row and the result record. -/
def dockStep (engine : String → EngineResult) (st : DockState)
    (ligand_file : String) : DockState :=
  if isPdbqtName ligand_file then
    let st1 := { st with invocations := st.invocations ++ [ligand_file] }
    let r := engine ligand_file
    if r.returncode ≠ 0 then st1
    else
      let st2 := { st1 with captures := st1.captures ++ [(ligand_file, r.stdout)] }
      match energyOpt r with
      | none => st2
      | some e =>
        { st2 with
          summary := st2.summary ++ [ligand_file ++ "\t" ++ e]
          results := st2.results ++ [(ligand_file, e)] }
  else st

/-- `run_docking` (docking.py): write the header, then process every
directory entry of the ligand folder in enumeration order. -/
def run_docking (engine : String → EngineResult) (listdir : List String) :
    DockState :=
  listdir.foldl (dockStep engine)
    { summary := [summaryHeader], captures := [], results := [], invocations := [] }

/-- The result record produced for one directory entry, if any: the entry
must end in `.pdbqt`, the engine must return code 0, and the non-empty
capture must yield an energy token. -/
def rowOf (engine : String → EngineResult) (f : String) :
    Option (String × String) :=
  if isPdbqtName f then
    let r := engine f
    if r.returncode ≠ 0 then none
    else (energyOpt r).map (fun e => (f, e))
  else none

/-- The capture file produced for one directory entry, if any. -/
def captureOf (engine : String → EngineResult) (f : String) :
    Option (String × String) :=
  if isPdbqtName f then
    if (engine f).returncode ≠ 0 then none
    else some (f, (engine f).stdout)
  else none

/-- Rendering of one summary row (docking.py line 113). -/
def rowText (p : String × String) : String :=
  p.1 ++ "\t" ++ p.2

/-
## Pipeline step 2 (`pipeline.py` lines 27-32 with
`converters/smiles_to_mol2.py`)
-/

/-- `clean_smiles` (smiles_to_mol2.py line 11): `re.sub(r'\..*$', '', s)`
deletes everything from the first dot on. -/
def clean_smiles (s : String) : String :=
  (s.toList.takeWhile (fun c => c ≠ '.')).asString

/-- The name sanitisation of smiles_to_mol2.py line 30:
`str(name).strip().replace('/', '_').replace('\\', '_').replace(':', '_')`. -/
def sanitizeName (name : String) : String :=
  let stripped :=
    ((name.toList.dropWhile Char.isWhitespace).reverse.dropWhile
      Char.isWhitespace).reverse
  (stripped.map (fun c => if c = '/' ∨ c = '\\' ∨ c = ':' then '_' else c)).asString

/-- `convert_smiles_to_mol2` (smiles_to_mol2.py lines 13-48). The obabel
subprocess (`check=True`) is an oracle `conv` on the cleaned SMILES string;
`False` stands for a `CalledProcessError`, which the function logs and
re-raises (line 46), modelled as `Except.error`. On success the generated
file path is returned. -/
def convert_smiles_to_mol2 (conv : String → Bool) (smiles name output_dir : String) :
    Except String String :=
  let cleaned_smiles := clean_smiles smiles
  let sanitized_name := sanitizeName name
  let output_filename := output_dir ++ "/" ++ sanitized_name ++ ".mol2"
  if conv cleaned_smiles then .ok output_filename
  else .error ("Error converting SMILES " ++ smiles ++ " for " ++ name)

/-- Step 2 of `run_pipeline` (pipeline.py lines 27-32): for each
`(name, smiles)` row, clean the SMILES and call `convert_smiles_to_mol2`.
The loop body has no exception handler, so an `Except.error` from any row
propagates out of the whole stage; on success the generated files are on
disk in row order. -/
def prepareLigands (conv : String → Bool) (mol2_dir : String) :
    List (String × String) → Except String (List String)
  | [] => .ok []
  | row :: rest =>
    match convert_smiles_to_mol2 conv (clean_smiles row.2) row.1 mol2_dir with
    | .error e => .error e
    | .ok f => (prepareLigands conv mol2_dir rest).map (fun fs => f :: fs)

/-- The `convert_from_excel` loop of smiles_to_mol2.py lines 71-88, which —
unlike `run_pipeline` — wraps each conversion in `try/except` and drops the
failing row (lines 83-87). (Rows with missing data are out of scope here;
`conv` decides only the subprocess outcome.) -/
def convert_from_excel (conv : String → Bool) (output_dir : String)
    (rows : List (String × String)) : List String :=
  rows.filterMap (fun row =>
    match convert_smiles_to_mol2 conv row.2 row.1 output_dir with
    | .ok f => some f
    | .error _ => none)

/-
## Lemmas about the geometry extractor
-/

/-- A line that contributes nothing leaves the loop state unchanged. -/
theorem stepLine_of_invalid {line : String} (st : Option Bounds)
    (h : validAtomLine line = false) : stepLine st line = st := by
  unfold stepLine validAtomLine at *
  cases ha : isAtomLine line with
  | false => simp [ha]
  | true =>
    simp only [ha, Bool.true_and] at h
    simp only [ha, if_true]
    cases ht : tryXYZ (pySplit line) with
    | none => rfl
    | some p => rw [ht] at h; simp at h

/-- Once some valid triple has been seen, the state stays defined. -/
theorem stepLine_isSome {st : Option Bounds} (line : String)
    (h : st.isSome) : (stepLine st line).isSome := by
  unfold stepLine
  cases isAtomLine line <;> simp only [if_true, if_false, Bool.false_eq_true]
  · exact h
  · cases tryXYZ (pySplit line) with
    | none => exact h
    | some p => simp

/-- Defined states propagate through the whole scan. -/
theorem foldl_stepLine_isSome (l : List String) (st : Option Bounds)
    (h : st.isSome) : (l.foldl stepLine st).isSome := by
  induction l generalizing st with
  | nil => exact h
  | cons a l ih => exact ih _ (stepLine_isSome a h)

/-- The scan ends undefined exactly when no line contributed a triple. -/
theorem foldl_stepLine_none_iff (l : List String) :
    l.foldl stepLine none = none ↔ l.any validAtomLine = false := by
  induction l with
  | nil => simp
  | cons a l ih =>
    cases hv : validAtomLine a with
    | false =>
      rw [List.foldl_cons, stepLine_of_invalid none hv]
      simp [hv, ih]
    | true =>
      have ha : isAtomLine a = true := by
        unfold validAtomLine at hv
        exact (Bool.and_eq_true_iff.mp hv).1
      have ht : (tryXYZ (pySplit a)).isSome := by
        unfold validAtomLine at hv
        exact (Bool.and_eq_true_iff.mp hv).2
      obtain ⟨p, hp⟩ := Option.isSome_iff_exists.mp ht
      have hstep : stepLine none a = some (updateBounds none p) := by
        unfold stepLine
        simp [ha, hp]
      rw [List.foldl_cons, hstep]
      constructor
      · intro hcontra
        have := foldl_stepLine_isSome l (some (updateBounds none p)) (by simp)
        rw [hcontra] at this
        simp at this
      · intro hcontra
        simp [hv] at hcontra

/-- Well-formedness of bounding statistics: min ≤ max on every axis. -/
def Bounds.wf (b : Bounds) : Prop :=
  b.min_x ≤ b.max_x ∧ b.min_y ≤ b.max_y ∧ b.min_z ≤ b.max_z

/-- Updating preserves well-formedness (or establishes it from scratch). -/
theorem updateBounds_wf (st : Option Bounds) (p : ℚ × ℚ × ℚ)
    (h : ∀ b, st = some b → b.wf) : (updateBounds st p).wf := by
  cases st with
  | none =>
    obtain ⟨x, y, z⟩ := p
    exact ⟨le_refl x, le_refl y, le_refl z⟩
  | some b =>
    obtain ⟨hx, hy, hz⟩ := h b rfl
    obtain ⟨x, y, z⟩ := p
    refine ⟨?_, ?_, ?_⟩ <;>
      exact le_trans (min_le_left _ _) (le_trans (by assumption) (le_max_left _ _))

/-- Every defined state reached by the scan is well-formed. -/
theorem foldl_stepLine_wf (l : List String) (st : Option Bounds) (b : Bounds)
    (hst : ∀ b0, st = some b0 → b0.wf)
    (h : l.foldl stepLine st = some b) : b.wf := by
  induction l generalizing st with
  | nil => exact hst b h
  | cons a l ih =>
    rw [List.foldl_cons] at h
    refine ih (stepLine st a) ?_ h
    intro b0 hb0
    unfold stepLine at hb0
    by_cases ha : isAtomLine a = true
    · rw [if_pos ha] at hb0
      cases ht : tryXYZ (pySplit a) with
      | none => rw [ht] at hb0; exact hst b0 hb0
      | some p =>
        rw [ht] at hb0
        have : b0 = updateBounds st p := by
          injection hb0 with h'
          exact h'.symm
        rw [this]
        exact updateBounds_wf st p hst
    · rw [if_neg ha] at hb0
      exact hst b0 hb0

/-- Merging two triples into the statistics commutes. -/
theorem updateBounds_comm (st : Option Bounds) (p q : ℚ × ℚ × ℚ) :
    updateBounds (some (updateBounds st p)) q
      = updateBounds (some (updateBounds st q)) p := by
  obtain ⟨px, py, pz⟩ := p
  obtain ⟨qx, qy, qz⟩ := q
  have hmax : ∀ a x y : ℚ, max (max a x) y = max (max a y) x := by
    intro a x y
    rw [max_assoc, max_comm x y, ← max_assoc]
  cases st with
  | none =>
    simp only [updateBounds, Bounds.mk.injEq]
    exact ⟨min_comm _ _, max_comm _ _, min_comm _ _, max_comm _ _,
      min_comm _ _, max_comm _ _⟩
  | some b =>
    simp only [updateBounds, Bounds.mk.injEq]
    exact ⟨min_right_comm _ _ _, hmax _ _ _, min_right_comm _ _ _, hmax _ _ _,
      min_right_comm _ _ _, hmax _ _ _⟩

/-- Scan steps for two lines commute, whatever the lines contain. -/
theorem stepLine_comm (st : Option Bounds) (a b : String) :
    stepLine (stepLine st a) b = stepLine (stepLine st b) a := by
  by_cases hva : validAtomLine a = true
  · by_cases hvb : validAtomLine b = true
    · have ha : isAtomLine a = true := (Bool.and_eq_true_iff.mp hva).1
      have hb : isAtomLine b = true := (Bool.and_eq_true_iff.mp hvb).1
      obtain ⟨p, hp⟩ := Option.isSome_iff_exists.mp (Bool.and_eq_true_iff.mp hva).2
      obtain ⟨q, hq⟩ := Option.isSome_iff_exists.mp (Bool.and_eq_true_iff.mp hvb).2
      have sa : ∀ s, stepLine s a = some (updateBounds s p) := by
        intro s; unfold stepLine; simp [ha, hp]
      have sb : ∀ s, stepLine s b = some (updateBounds s q) := by
        intro s; unfold stepLine; simp [hb, hq]
      rw [sa, sb, sb, sa, updateBounds_comm]
    · rw [stepLine_of_invalid _ (Bool.eq_false_iff.mpr hvb),
        stepLine_of_invalid _ (Bool.eq_false_iff.mpr hvb)]
  · rw [stepLine_of_invalid _ (Bool.eq_false_iff.mpr hva),
      stepLine_of_invalid _ (Bool.eq_false_iff.mpr hva)]

/-- Lines that contribute nothing can be filtered out of the scan. -/
theorem foldl_stepLine_filter (l : List String) (p : String → Bool)
    (hp : ∀ a, p a = false → validAtomLine a = false) (st : Option Bounds) :
    l.foldl stepLine st = (l.filter p).foldl stepLine st := by
  induction l generalizing st with
  | nil => rfl
  | cons a l ih =>
    cases hpa : p a with
    | false =>
      rw [List.foldl_cons, stepLine_of_invalid st (hp a hpa), List.filter_cons,
        if_neg (by simp [hpa])]
      exact ih st
    | true =>
      rw [List.foldl_cons, List.filter_cons, if_pos (by simp [hpa]),
        List.foldl_cons]
      exact ih (stepLine st a)

/-- Evaluation helper: a successfully parsed token gives its exact value. -/
theorem pyFloat_val (s : String) (d : ℤ × ℕ) (q : ℚ)
    (h : parseDec s.toList = some d) (hq : ratOfDec d = q) :
    pyFloat s = some q := by
  unfold pyFloat
  rw [h]
  show some (ratOfDec d) = some q
  rw [hq]

/-- Evaluation helper: the coordinate triple of a tokenized line. -/
theorem tryXYZ_val (fields : List String) (sx sy sz : String) (qx qy qz : ℚ)
    (h6 : fields[6]? = some sx) (h7 : fields[7]? = some sy)
    (h8 : fields[8]? = some sz) (hx : pyFloat sx = some qx)
    (hy : pyFloat sy = some qy) (hz : pyFloat sz = some qz) :
    tryXYZ fields = some (qx, qy, qz) := by
  unfold tryXYZ
  rw [h6, h7, h8]
  simp [hx, hy, hz]

/-- Evaluation helper: the scan step on a contributing line. -/
theorem stepLine_val (st : Option Bounds) (line : String) (p : ℚ × ℚ × ℚ)
    (ha : isAtomLine line = true) (ht : tryXYZ (pySplit line) = some p) :
    stepLine st line = some (updateBounds st p) := by
  unfold stepLine
  rw [if_pos ha, ht]

/-- First atom record of the demo receptor, at (0,0,0). -/
def demoLine1 : String :=
  "ATOM      1  C   LIG A   1       0.0     0.0     0.0   0.00  0.00    +0.034 C"

/-- Second atom record of the demo receptor, at (10,6,4). -/
def demoLine2 : String :=
  "ATOM      2  N   LIG A   1      10.0     6.0     4.0   0.00  0.00    -0.012 N"

/-- A receptor file with exactly two atoms, at (0,0,0) and (10,6,4). -/
def demoReceptorLines : List String :=
  [demoLine1, demoLine2]

/-- The scan of the demo receptor yields exactly the expected extrema. -/
theorem demoReceptorLines_fold :
    demoReceptorLines.foldl stepLine none = some ⟨0, 10, 0, 6, 0, 4⟩ := by
  have h1 : tryXYZ (pySplit demoLine1) = some ((0 : ℚ), 0, 0) :=
    tryXYZ_val _ "0.0" "0.0" "0.0" 0 0 0 (by decide) (by decide) (by decide)
      (pyFloat_val _ (0, 1) 0 (by decide) (by norm_num [ratOfDec]))
      (pyFloat_val _ (0, 1) 0 (by decide) (by norm_num [ratOfDec]))
      (pyFloat_val _ (0, 1) 0 (by decide) (by norm_num [ratOfDec]))
  have h2 : tryXYZ (pySplit demoLine2) = some ((10 : ℚ), 6, 4) :=
    tryXYZ_val _ "10.0" "6.0" "4.0" 10 6 4 (by decide) (by decide) (by decide)
      (pyFloat_val _ (100, 1) 10 (by decide) (by norm_num [ratOfDec]))
      (pyFloat_val _ (60, 1) 6 (by decide) (by norm_num [ratOfDec]))
      (pyFloat_val _ (40, 1) 4 (by decide) (by norm_num [ratOfDec]))
  show List.foldl stepLine none [demoLine1, demoLine2] = some ⟨0, 10, 0, 6, 0, 4⟩
  rw [List.foldl_cons, stepLine_val none demoLine1 _ (by decide) h1,
    List.foldl_cons, List.foldl_nil,
    stepLine_val _ demoLine2 _ (by decide) h2]
  simp only [updateBounds, Option.some.injEq, Bounds.mk.injEq]
  norm_num

/-- C2: whenever the scan of the structure file produced bounding statistics
`b`, `calculate_docking_box` returns center `(min + max) / 2` and size
`(max - min) + padding` on each axis, and each size is at least the padding
when the padding is non-negative. -/
theorem box_formula_and_padding_lb (lines : List String) (padding : ℚ)
    (b : Bounds) (hb : lines.foldl stepLine none = some b) :
    calculate_docking_box lines padding = .ok
      { center_x := (b.min_x + b.max_x) / 2
        center_y := (b.min_y + b.max_y) / 2
        center_z := (b.min_z + b.max_z) / 2
        size_x := (b.max_x - b.min_x) + padding
        size_y := (b.max_y - b.min_y) + padding
        size_z := (b.max_z - b.min_z) + padding }
    ∧ (0 ≤ padding →
        padding ≤ (b.max_x - b.min_x) + padding
        ∧ padding ≤ (b.max_y - b.min_y) + padding
        ∧ padding ≤ (b.max_z - b.min_z) + padding) := by
  obtain ⟨hx, hy, hz⟩ := foldl_stepLine_wf lines none b (by intro b0 h0; cases h0) hb
  refine ⟨?_, fun _ => ⟨by linarith, by linarith, by linarith⟩⟩
  unfold calculate_docking_box
  rw [hb]

/-- Witness for C2: the two-atom receptor with padding 10 gives center
(5,3,2) and sizes (20,16,14). -/
theorem box_formula_and_padding_lb_witness :
    demoReceptorLines.foldl stepLine none = some ⟨0, 10, 0, 6, 0, 4⟩
    ∧ calculate_docking_box demoReceptorLines 10 = .ok ⟨5, 3, 2, 20, 16, 14⟩
    ∧ (10 : ℚ) ≤ (10 - 0) + 10
    ∧ (10 : ℚ) ≤ (6 - 0) + 10
    ∧ (10 : ℚ) ≤ (4 - 0) + 10 := by
  have h := box_formula_and_padding_lb demoReceptorLines 10 ⟨0, 10, 0, 6, 0, 4⟩
    demoReceptorLines_fold
  obtain ⟨h1, h2, h3⟩ := h.2 (by norm_num)
  refine ⟨demoReceptorLines_fold, ?_, h1, h2, h3⟩
  rw [h.1]
  simp only [Except.ok.injEq, Box.mk.injEq]
  norm_num

/-- C5: the computation fails — with exactly the `ValueError` message of the
source — if and only if no atom-bearing line yielded a valid coordinate
triple, and succeeds otherwise. -/
theorem box_error_iff_no_valid_line (lines : List String) (padding : ℚ) :
    ((calculate_docking_box lines padding).isOk = lines.any validAtomLine)
    ∧ (calculate_docking_box lines padding = .error noCoordinatesMsg
        ↔ lines.any validAtomLine = false) := by
  unfold calculate_docking_box
  cases h : lines.foldl stepLine none with
  | none =>
    have hv := (foldl_stepLine_none_iff lines).mp h
    simp [hv, Except.isOk, Except.toBool]
  | some b =>
    have hv : lines.any validAtomLine = true := by
      cases hval : lines.any validAtomLine with
      | true => rfl
      | false =>
        have := (foldl_stepLine_none_iff lines).mpr hval
        rw [h] at this
        exact Option.noConfusion this
    simp [hv, Except.isOk, Except.toBool]

/-- C6: lines not tagged ATOM/HETATM never influence the box — the result
equals the result on the file with all non-atom-bearing lines removed. -/
theorem box_ignores_non_atom_lines (lines : List String) (padding : ℚ) :
    calculate_docking_box lines padding
      = calculate_docking_box (lines.filter isAtomLine) padding := by
  unfold calculate_docking_box
  rw [foldl_stepLine_filter lines isAtomLine
    (fun a ha => by unfold validAtomLine; rw [ha]; rfl) none]

/-- C7: the box is invariant under any permutation of the file lines (in
particular under any reordering of the atom-bearing coordinate records). -/
theorem box_perm_invariant (l1 l2 : List String) (padding : ℚ)
    (h : l1.Perm l2) :
    calculate_docking_box l1 padding = calculate_docking_box l2 padding := by
  unfold calculate_docking_box
  rw [h.foldl_eq' (fun x _ y _ z => stepLine_comm z x y) none]

/-- Witness for C7: swapping the two atom records of the demo receptor
leaves the box unchanged. -/
theorem box_perm_invariant_witness :
    demoReceptorLines.Perm demoReceptorLines.reverse
    ∧ calculate_docking_box demoReceptorLines 10
        = calculate_docking_box demoReceptorLines.reverse 10 :=
  ⟨(List.reverse_perm demoReceptorLines).symm,
   box_perm_invariant demoReceptorLines demoReceptorLines.reverse 10
     ((List.reverse_perm demoReceptorLines).symm)⟩

/-- An atom-tagged line whose x and y tokens parse but whose z token does
not. -/
def demoSkipLine : String :=
  "ATOM      3  C   LIG A   1       1.0     2.0     abc   0.00"

/-- C10: an atom-bearing line whose coordinate triple fails to parse leaves
the running statistics exactly unchanged (even when some of its tokens
parse), and consequently the box depends only on the fully valid lines. -/
theorem skipped_line_preserves_state (st : Option Bounds) (line : String)
    (lines : List String) (padding : ℚ) :
    (isAtomLine line = true → tryXYZ (pySplit line) = none →
      stepLine st line = st)
    ∧ calculate_docking_box lines padding
        = calculate_docking_box (lines.filter validAtomLine) padding := by
  constructor
  · intro ha ht
    unfold stepLine
    rw [if_pos ha, ht]
  · unfold calculate_docking_box
    rw [foldl_stepLine_filter lines validAtomLine (fun a ha => ha) none]

/-- Witness for C10: the partially parseable line leaves concrete
statistics untouched, and the demo receptor keeps its box after filtering. -/
theorem skipped_line_preserves_state_witness :
    (isAtomLine demoSkipLine = true → tryXYZ (pySplit demoSkipLine) = none →
      stepLine (some ⟨0, 10, 0, 6, 0, 4⟩) demoSkipLine
        = some ⟨0, 10, 0, 6, 0, 4⟩)
    ∧ calculate_docking_box demoReceptorLines 10
        = calculate_docking_box (demoReceptorLines.filter validAtomLine) 10 :=
  skipped_line_preserves_state (some ⟨0, 10, 0, 6, 0, 4⟩) demoSkipLine
    demoReceptorLines 10

/-
## Lemmas about the job supervisor
-/

/-- One loop iteration appends exactly its own invocation, capture, summary
row and result record. -/
theorem dockStep_spec (engine : String → EngineResult) (st : DockState)
    (a : String) :
    dockStep engine st a =
      { summary := st.summary ++ ((rowOf engine a).map rowText).toList
        captures := st.captures ++ (captureOf engine a).toList
        results := st.results ++ (rowOf engine a).toList
        invocations := st.invocations ++ if isPdbqtName a then [a] else [] } := by
  unfold dockStep rowOf captureOf
  by_cases hpd : isPdbqtName a = true
  · simp only [hpd, if_true]
    by_cases hrc : (engine a).returncode ≠ 0
    · simp [hrc]
    · simp only [hrc, if_false]
      cases he : energyOpt (engine a) with
      | none => simp [he, hrc]
      | some e => simp [he, hrc, rowText]
  · simp [hpd]

/-- Closed form of the whole batch loop: every observable component of the
final state is a `filterMap`/`filter` of the directory listing. -/
theorem foldl_dockStep_spec (engine : String → EngineResult)
    (l : List String) (st : DockState) :
    l.foldl (dockStep engine) st =
      { summary := st.summary ++ (l.filterMap (rowOf engine)).map rowText
        captures := st.captures ++ l.filterMap (captureOf engine)
        results := st.results ++ l.filterMap (rowOf engine)
        invocations := st.invocations ++ l.filter (fun f => isPdbqtName f) } := by
  induction l generalizing st with
  | nil => simp
  | cons a l ih =>
    rw [List.foldl_cons, ih, dockStep_spec]
    simp only [List.filterMap_cons, List.filter_cons]
    cases hrow : rowOf engine a with
    | none =>
      cases hcap : captureOf engine a with
      | none => cases hpd : isPdbqtName a <;> simp
      | some c => cases hpd : isPdbqtName a <;> simp
    | some r =>
      cases hcap : captureOf engine a with
      | none => cases hpd : isPdbqtName a <;> simp
      | some c => cases hpd : isPdbqtName a <;> simp

/-- The final state of `run_docking` in closed form. -/
theorem run_docking_spec (engine : String → EngineResult) (l : List String) :
    run_docking engine l =
      { summary := summaryHeader :: (l.filterMap (rowOf engine)).map rowText
        captures := l.filterMap (captureOf engine)
        results := l.filterMap (rowOf engine)
        invocations := l.filter (fun f => isPdbqtName f) } := by
  unfold run_docking
  rw [foldl_dockStep_spec]
  rfl

/-- A produced result record names its own directory entry, which must be a
`.pdbqt` file whose engine run returned 0. -/
theorem rowOf_shape (engine : String → EngineResult) (f : String)
    (p : String × String) (h : rowOf engine f = some p) :
    p.1 = f ∧ isPdbqtName f = true ∧ (engine f).returncode = 0 := by
  unfold rowOf at h
  by_cases hpd : isPdbqtName f = true
  · rw [if_pos hpd] at h
    by_cases hrc : (engine f).returncode ≠ 0
    · rw [if_pos hrc] at h
      exact Option.noConfusion h
    · rw [if_neg hrc] at h
      cases he : energyOpt (engine f) with
      | none => rw [he] at h; exact Option.noConfusion h
      | some e =>
        rw [he] at h
        injection h with h'
        rw [← h']
        exact ⟨rfl, hpd, by omega⟩
  · rw [if_neg hpd] at h
    exact Option.noConfusion h

/-- A produced capture file names its own directory entry, which must be a
`.pdbqt` file whose engine run returned 0. -/
theorem captureOf_shape (engine : String → EngineResult) (f : String)
    (p : String × String) (h : captureOf engine f = some p) :
    p.1 = f ∧ isPdbqtName f = true := by
  unfold captureOf at h
  by_cases hpd : isPdbqtName f = true
  · rw [if_pos hpd] at h
    by_cases hrc : (engine f).returncode ≠ 0
    · rw [if_pos hrc] at h
      exact Option.noConfusion h
    · rw [if_neg hrc] at h
      injection h with h'
      rw [← h']
      exact ⟨rfl, hpd⟩
  · rw [if_neg hpd] at h
    exact Option.noConfusion h

/-- When every listed `.pdbqt` entry except `K` succeeds with a parseable
score and `K`'s engine run fails, the produced result records are exactly
the non-`K` entries, in listing order. -/
theorem filterMap_rowOf_single_failure (engine : String → EngineResult)
    (l : List String) (K : String)
    (hall : ∀ f ∈ l, isPdbqtName f = true)
    (hKfail : (engine K).returncode ≠ 0)
    (hothers : ∀ f ∈ l, f ≠ K →
      (engine f).returncode = 0 ∧ (energyOpt (engine f)).isSome) :
    (l.filterMap (rowOf engine)).map Prod.fst
      = l.filter (fun f => f ≠ K) := by
  induction l with
  | nil => rfl
  | cons a l ih =>
    have tail := ih (fun f hf => hall f (List.mem_cons_of_mem a hf))
      (fun f hf hne => hothers f (List.mem_cons_of_mem a hf) hne)
    by_cases haK : a = K
    · subst haK
      have hrow : rowOf engine a = none := by
        unfold rowOf
        rw [if_pos (hall a (List.mem_cons_self a l)), if_pos hKfail]
      rw [List.filterMap_cons, hrow, List.filter_cons, if_neg (by simp)]
      exact tail
    · obtain ⟨hrc, hsome⟩ := hothers a (List.mem_cons_self a l) haK
      obtain ⟨e, he⟩ := Option.isSome_iff_exists.mp hsome
      have hrow : rowOf engine a = some (a, e) := by
        unfold rowOf
        rw [if_pos (hall a (List.mem_cons_self a l)),
          if_neg (by omega : ¬ (engine a).returncode ≠ 0), he]
        rfl
      rw [List.filterMap_cons, hrow, List.filter_cons,
        if_pos (by simp [haK]), List.map_cons, tail]

/-- Removing the one occurrence of a listed element shortens the list by
one. -/
theorem length_filter_ne_of_nodup (l : List String) (K : String)
    (hmem : K ∈ l) (hnodup : l.Nodup) :
    (l.filter (fun f => f ≠ K)).length = l.length - 1 := by
  induction l with
  | nil => cases hmem
  | cons a l ih =>
    have hnd := List.nodup_cons.mp hnodup
    by_cases haK : a = K
    · subst haK
      rw [List.filter_cons, if_neg (by simp)]
      have : l.filter (fun f => f ≠ a) = l :=
        List.filter_eq_self.mpr (fun b hb => by
          simp only [ne_eq, decide_eq_true_eq]
          intro hba
          exact hnd.1 (hba ▸ hb))
      rw [this]
      simp
    · have hKl : K ∈ l := by
        cases hmem with
        | head => exact absurd rfl haK
        | tail _ h => exact h
      have hpos : 0 < l.length := List.length_pos_of_mem hKl
      rw [List.filter_cons, if_pos (by simp [haK])]
      simp only [List.length_cons]
      rw [ih hKl hnd.2]
      omega

/-- C1: in a batch of `.pdbqt` ligands where exactly ligand `K`'s engine
process exits non-zero and every other ligand succeeds with a parseable
score, the result sequence lists exactly the other ligands, in
directory-enumeration order, with length one less than the batch. -/
theorem batch_tolerates_single_failure (engine : String → EngineResult)
    (l : List String) (K : String)
    (hmem : K ∈ l) (hnodup : l.Nodup)
    (hall : ∀ f ∈ l, isPdbqtName f = true)
    (hKfail : (engine K).returncode ≠ 0)
    (hothers : ∀ f ∈ l, f ≠ K →
      (engine f).returncode = 0 ∧ (energyOpt (engine f)).isSome) :
    (run_docking engine l).results.map Prod.fst = l.filter (fun f => f ≠ K)
    ∧ (run_docking engine l).results.length = l.length - 1
    ∧ K ∉ (run_docking engine l).results.map Prod.fst := by
  rw [run_docking_spec]
  have hfst := filterMap_rowOf_single_failure engine l K hall hKfail hothers
  refine ⟨hfst, ?_, ?_⟩
  · have := congrArg List.length hfst
    rw [List.length_map] at this
    rw [this, length_filter_ne_of_nodup l K hmem hnodup]
  · rw [hfst]
    intro hI
    have := (List.mem_filter.mp hI).2
    simp at this

/-- The engine used by the C1 witness: fails on `k.pdbqt`, succeeds with a
parseable score on everything else. -/
def engineOneFail : String → EngineResult :=
  fun f =>
    if f = "k.pdbqt" then ⟨1, "segfault"⟩
    else ⟨0, "REMARK VINA RESULT: -7.2 0 0\n"⟩

/-- Witness for C1: a three-ligand batch whose middle ligand fails yields
the two other ligands, in order. -/
theorem batch_tolerates_single_failure_witness :
    "k.pdbqt" ∈ ["a.pdbqt", "k.pdbqt", "b.pdbqt"]
    ∧ (["a.pdbqt", "k.pdbqt", "b.pdbqt"] : List String).Nodup
    ∧ (run_docking engineOneFail ["a.pdbqt", "k.pdbqt", "b.pdbqt"]).results.map
        Prod.fst
        = ["a.pdbqt", "k.pdbqt", "b.pdbqt"].filter (fun f => f ≠ "k.pdbqt")
    ∧ (run_docking engineOneFail ["a.pdbqt", "k.pdbqt", "b.pdbqt"]).results.length
        = (["a.pdbqt", "k.pdbqt", "b.pdbqt"] : List String).length - 1
    ∧ "k.pdbqt" ∉ (run_docking engineOneFail
        ["a.pdbqt", "k.pdbqt", "b.pdbqt"]).results.map Prod.fst := by
  have h := batch_tolerates_single_failure engineOneFail
    ["a.pdbqt", "k.pdbqt", "b.pdbqt"] "k.pdbqt"
    (by decide) (by decide) (by decide) (by decide) (by decide)
  exact ⟨by decide, by decide, h.1, h.2.1, h.2.2⟩

/-- An empty capture has no result line. -/
theorem findResultLine_of_empty (s : String) (h : s.length = 0) :
    findResultLine s = none := by
  have hs : s = "" := by
    cases s with
    | mk data =>
      cases data with
      | nil => rfl
      | cons c cs => simp [String.length] at h
  rw [hs]
  decide

/-- C3: for a listed `.pdbqt` ligand whose engine run returned 0, the
recorded score is the 4th whitespace token of the first line of the capture
starting with `REMARK VINA RESULT:`, and if no such line exists the ligand
appears nowhere in the result sequence. -/
theorem score_is_fourth_token (engine : String → EngineResult)
    (l : List String) (f ln e : String)
    (hmem : f ∈ l) (hpd : isPdbqtName f = true)
    (hrc : (engine f).returncode = 0) :
    (findResultLine (engine f).stdout = none →
      f ∉ (run_docking engine l).results.map Prod.fst)
    ∧ (findResultLine (engine f).stdout = some ln →
      (pySplit ln)[3]? = some e →
      (f, e) ∈ (run_docking engine l).results) := by
  rw [run_docking_spec]
  constructor
  · intro hnone hI
    obtain ⟨p, hpmem, hfst⟩ := List.mem_map.mp hI
    obtain ⟨g, hgmem, hg⟩ := List.mem_filterMap.mp hpmem
    have hshape := rowOf_shape engine g p hg
    have hgf : g = f := by rw [← hshape.1, hfst]
    subst hgf
    have : rowOf engine g = none := by
      unfold rowOf
      rw [if_pos hpd, if_neg (by omega)]
      have he : energyOpt (engine g) = none := by
        unfold energyOpt extractEnergy
        rw [hnone]
        simp
      rw [he]
      rfl
    rw [this] at hg
    exact Option.noConfusion hg
  · intro hln htok
    have hlen : (engine f).stdout.length > 0 := by
      by_contra hc
      have h0 : (engine f).stdout.length = 0 := by omega
      rw [findResultLine_of_empty _ h0] at hln
      exact Option.noConfusion hln
    have hrow : rowOf engine f = some (f, e) := by
      unfold rowOf
      rw [if_pos hpd, if_neg (by omega)]
      have he : energyOpt (engine f) = some e := by
        unfold energyOpt extractEnergy
        rw [if_pos hlen, hln]
        exact htok
      rw [he]
      rfl
    exact List.mem_filterMap.mpr ⟨f, hmem, hrow⟩

/-- The engine used by the C3 witness: succeeds with the documented result
line. -/
def engineResultLine : String → EngineResult :=
  fun _ => ⟨0, "REMARK VINA RESULT: -7.2 0 0\nREMARK VINA RESULT: -9.9 0 0\n"⟩

/-- Witness for C3: the first result line wins and its 4th token `-7.2` is
the recorded score. -/
theorem score_is_fourth_token_witness :
    "lig.pdbqt" ∈ ["lig.pdbqt"]
    ∧ isPdbqtName "lig.pdbqt" = true
    ∧ (engineResultLine "lig.pdbqt").returncode = 0
    ∧ (findResultLine (engineResultLine "lig.pdbqt").stdout
        = some "REMARK VINA RESULT: -7.2 0 0" →
      (pySplit "REMARK VINA RESULT: -7.2 0 0")[3]? = some "-7.2" →
      ("lig.pdbqt", "-7.2") ∈ (run_docking engineResultLine ["lig.pdbqt"]).results) := by
  have h := score_is_fourth_token engineResultLine ["lig.pdbqt"] "lig.pdbqt"
    "REMARK VINA RESULT: -7.2 0 0" "-7.2"
    (by decide) (by decide) (by decide)
  exact ⟨by decide, by decide, by decide, h.2⟩

/-- C8: the summary artifact is exactly the header line followed by one
tab-separated row per record of the returned result sequence, in order. -/
theorem summary_matches_results (engine : String → EngineResult)
    (l : List String) :
    (run_docking engine l).summary
      = summaryHeader ::
        (run_docking engine l).results.map (fun p => p.1 ++ "\t" ++ p.2) := by
  rw [run_docking_spec]
  rfl

/-- The non-`.pdbqt` member of a listing contributes nothing: a filterMap
producing entries only for `.pdbqt` names can be restricted to them. -/
theorem filterMap_restrict_pdbqt {β : Type} (g : String → Option β)
    (hg : ∀ a, isPdbqtName a = false → g a = none) (l : List String) :
    l.filterMap g = (l.filter (fun f => isPdbqtName f)).filterMap g := by
  induction l with
  | nil => rfl
  | cons a l ih =>
    cases hpd : isPdbqtName a with
    | false =>
      rw [List.filterMap_cons, hg a hpd, List.filter_cons, if_neg (by simp [hpd])]
      exact ih
    | true =>
      rw [List.filterMap_cons, List.filter_cons, if_pos (by simp [hpd]),
        List.filterMap_cons]
      cases g a <;> simp [ih]

/-- C9: a directory entry not ending (case-insensitively) in `.pdbqt`
produces no engine invocation, no capture artifact and no result record,
and the whole final state equals the one computed from the `.pdbqt` entries
alone. -/
theorem non_pdbqt_entry_ignored (engine : String → EngineResult)
    (l : List String) (f : String)
    (_hmem : f ∈ l) (hf : isPdbqtName f = false) :
    f ∉ (run_docking engine l).invocations
    ∧ f ∉ (run_docking engine l).captures.map Prod.fst
    ∧ f ∉ (run_docking engine l).results.map Prod.fst
    ∧ run_docking engine l
        = run_docking engine (l.filter (fun g => isPdbqtName g)) := by
  rw [run_docking_spec, run_docking_spec]
  refine ⟨?_, ?_, ?_, ?_⟩
  · intro hI
    have := List.of_mem_filter hI
    rw [hf] at this
    exact Bool.noConfusion this
  · intro hI
    obtain ⟨p, hpmem, hfst⟩ := List.mem_map.mp hI
    obtain ⟨g, hgmem, hg⟩ := List.mem_filterMap.mp hpmem
    obtain ⟨h1, h2⟩ := captureOf_shape engine g p hg
    rw [hfst] at h1
    rw [← h1, hf] at h2
    exact Bool.noConfusion h2
  · intro hI
    obtain ⟨p, hpmem, hfst⟩ := List.mem_map.mp hI
    obtain ⟨g, hgmem, hg⟩ := List.mem_filterMap.mp hpmem
    obtain ⟨h1, h2, _⟩ := rowOf_shape engine g p hg
    rw [hfst] at h1
    rw [← h1, hf] at h2
    exact Bool.noConfusion h2
  · have hrow : l.filterMap (rowOf engine)
        = (l.filter (fun g => isPdbqtName g)).filterMap (rowOf engine) :=
      filterMap_restrict_pdbqt _ (fun a ha => by unfold rowOf; rw [if_neg (by simp [ha])]) l
    have hcap : l.filterMap (captureOf engine)
        = (l.filter (fun g => isPdbqtName g)).filterMap (captureOf engine) :=
      filterMap_restrict_pdbqt _ (fun a ha => by unfold captureOf; rw [if_neg (by simp [ha])]) l
    have hfil : l.filter (fun g => isPdbqtName g)
        = (l.filter (fun g => isPdbqtName g)).filter (fun g => isPdbqtName g) := by
      rw [List.filter_filter]
      simp
    rw [← hrow, ← hcap, ← hfil]

/-- The constant engine used by the C9 witness. -/
def engineQuiet : String → EngineResult :=
  fun _ => ⟨0, ""⟩

/-- Witness for C9: a stray text file in the ligand folder is invisible to
the batch. -/
theorem non_pdbqt_entry_ignored_witness :
    "notes.txt" ∈ ["notes.txt", "a.pdbqt"]
    ∧ isPdbqtName "notes.txt" = false
    ∧ "notes.txt" ∉ (run_docking engineQuiet ["notes.txt", "a.pdbqt"]).invocations
    ∧ "notes.txt" ∉ (run_docking engineQuiet
        ["notes.txt", "a.pdbqt"]).captures.map Prod.fst
    ∧ "notes.txt" ∉ (run_docking engineQuiet
        ["notes.txt", "a.pdbqt"]).results.map Prod.fst
    ∧ run_docking engineQuiet ["notes.txt", "a.pdbqt"]
        = run_docking engineQuiet
            (["notes.txt", "a.pdbqt"].filter (fun g => isPdbqtName g)) := by
  have h := non_pdbqt_entry_ignored engineQuiet ["notes.txt", "a.pdbqt"]
    "notes.txt" (by decide) (by decide)
  exact ⟨by decide, by decide, h.1, h.2.1, h.2.2.1, h.2.2.2⟩

/-
## Pipeline step 2: conversion-failure behaviour
-/

/-- Cutting at the first dot is idempotent. -/
theorem takeWhile_idem {α : Type} (p : α → Bool) (l : List α) :
    (l.takeWhile p).takeWhile p = l.takeWhile p := by
  induction l with
  | nil => rfl
  | cons a l ih =>
    cases hpa : p a with
    | false => simp [List.takeWhile_cons, hpa]
    | true => simp [List.takeWhile_cons, hpa, ih]

/-- `clean_smiles` is idempotent, so the double cleaning performed by
pipeline.py line 31 plus smiles_to_mol2.py line 27 equals a single one. -/
theorem clean_smiles_idem (s : String) :
    clean_smiles (clean_smiles s) = clean_smiles s := by
  unfold clean_smiles
  exact congrArg List.asString (takeWhile_idem _ s.toList)

/-- The conversion oracle of the C4 scenario: obabel fails exactly on the
SMILES string `XXX`. -/
def convDemo : String → Bool :=
  fun s => s ≠ "XXX"

/-- Counterexample to C4: with three molecules whose middle SMILES cannot
be converted, the `PrepareLigands` stage of `run_pipeline` does not drop
the molecule and continue — it propagates the error, so the whole stage
(and with it the pipeline run) aborts and the third molecule is never
converted. -/
theorem pipeline_drop_claim_counterexample :
    prepareLigands convDemo "mol2_files"
        [("m1", "CCO"), ("bad", "XXX"), ("m2", "CCN")]
      = .error ("Error converting SMILES XXX for bad")
    ∧ (prepareLigands convDemo "mol2_files"
        [("m1", "CCO"), ("bad", "XXX"), ("m2", "CCN")]).isOk = false := by
  constructor
  · rfl
  · rfl

/-- C4 amended: in `run_pipeline`'s `PrepareLigands` loop a conversion
failure is not tolerated: the first molecule whose (cleaned) SMILES the
converter rejects makes the whole stage fail with that molecule's error,
whatever molecules follow it. (The drop-and-continue behaviour exists only
in `convert_from_excel`, which `run_pipeline` does not call.) -/
theorem pipeline_conversion_failure_propagates (conv : String → Bool)
    (dir : String) (pre post : List (String × String)) (r : String × String)
    (hpre : ∀ q ∈ pre, conv (clean_smiles q.2) = true)
    (hr : conv (clean_smiles r.2) = false) :
    prepareLigands conv dir (pre ++ r :: post)
      = .error ("Error converting SMILES " ++ clean_smiles r.2
          ++ " for " ++ r.1) := by
  induction pre with
  | nil =>
    have hc : convert_smiles_to_mol2 conv (clean_smiles r.2) r.1 dir
        = .error ("Error converting SMILES " ++ clean_smiles r.2
            ++ " for " ++ r.1) := by
      unfold convert_smiles_to_mol2
      rw [clean_smiles_idem, if_neg (by rw [hr]; exact Bool.noConfusion)]
    rw [List.nil_append]
    show (match convert_smiles_to_mol2 conv (clean_smiles r.2) r.1 dir with
      | .error e => (.error e : Except String (List String))
      | .ok f => (prepareLigands conv dir post).map (fun fs => f :: fs)) = _
    rw [hc]
  | cons q pre ih =>
    have hq := hpre q (List.mem_cons_self q pre)
    have hqok : convert_smiles_to_mol2 conv (clean_smiles q.2) q.1 dir
        = .ok (dir ++ "/" ++ sanitizeName q.1 ++ ".mol2") := by
      unfold convert_smiles_to_mol2
      rw [clean_smiles_idem, if_pos hq]
    rw [List.cons_append]
    show (match convert_smiles_to_mol2 conv (clean_smiles q.2) q.1 dir with
      | .error e => (.error e : Except String (List String))
      | .ok f => (prepareLigands conv dir (pre ++ r :: post)).map
          (fun fs => f :: fs)) = _
    rw [hqok, ih (fun q' hq' => hpre q' (List.mem_cons_of_mem q hq'))]
    rfl

/-- Witness for the amended C4: the concrete three-molecule scenario. -/
theorem pipeline_conversion_failure_propagates_witness :
    (∀ q ∈ [("m1", "CCO")], convDemo (clean_smiles q.2) = true)
    ∧ convDemo (clean_smiles "XXX") = false
    ∧ prepareLigands convDemo "mol2_files"
        ([("m1", "CCO")] ++ ("bad", "XXX") :: [("m2", "CCN")])
      = .error ("Error converting SMILES " ++ clean_smiles "XXX"
          ++ " for " ++ "bad") := by
  refine ⟨by decide, by decide, ?_⟩
  exact pipeline_conversion_failure_propagates convDemo "mol2_files"
    [("m1", "CCO")] [("m2", "CCN")] ("bad", "XXX") (by decide) (by decide)
